import Mathlib

/-!
Verification of the query/aggregation core of the engineering-metrics
dashboard (`src/app.py`).

The embedding is a shallow one.  The GitHub API is modelled as data that
the search iterators yield: each search is a list of items, together with
a flag saying whether the iterator raised a `GithubException` after
yielding those items (pagination failures surface mid-iteration).  Calls
that may raise an item-level `GithubException` are modelled as `Option`:
`none` means the call raised and the `except GithubException` handler ran.
`datetime` values are modelled at calendar-date granularity, which is the
granularity every piece of program logic under verification uses.
-/

namespace EngDash

/-- Calendar date, as Python's `datetime.date`: a (year, month, day)
triple.  Python's `date` constructor enforces `1 ≤ year ≤ 9999`,
`1 ≤ month ≤ 12`, `1 ≤ day ≤ 31`; `Date.valid` records that invariant. -/
structure Date where
  year : Nat
  month : Nat
  day : Nat
deriving Repr, DecidableEq

/-- The domain invariant Python's `date` constructor enforces. -/
def Date.valid (d : Date) : Prop :=
  1 ≤ d.year ∧ d.year ≤ 9999 ∧ 1 ≤ d.month ∧ d.month ≤ 12 ∧ 1 ≤ d.day ∧ d.day ≤ 31

instance (d : Date) : Decidable d.valid := by
  unfold Date.valid; infer_instance

/-- Python's `date.__le__`: lexicographic on (year, month, day). -/
def Date.le (a b : Date) : Bool :=
  a.year < b.year
    || (a.year == b.year
        && (a.month < b.month || (a.month == b.month && a.day ≤ b.day)))

/-- The decimal digit character of `n % 10`. -/
def digitChar (n : Nat) : Char :=
  match n % 10 with
  | 0 => '0'
  | 1 => '1'
  | 2 => '2'
  | 3 => '3'
  | 4 => '4'
  | 5 => '5'
  | 6 => '6'
  | 7 => '7'
  | 8 => '8'
  | _ => '9'

/-- `date.isoformat()`: `YYYY-MM-DD`, zero padded (`%04d-%02d-%02d`).
The fixed-width digit extraction agrees with Python's formatting on every
`Date.valid` date (year below 10000, month and day below 100), which is
the whole domain of Python's `date` type. -/
def Date.isoformat (d : Date) : String :=
  String.mk
    [digitChar (d.year / 1000), digitChar (d.year / 100),
     digitChar (d.year / 10), digitChar d.year, '-',
     digitChar (d.month / 10), digitChar d.month, '-',
     digitChar (d.day / 10), digitChar d.day]

/-- Does a string have the shape `YYYY-MM-DD` (ten characters: four
digits, a dash, two digits, a dash, two digits)? -/
def isIsoDateShape (s : String) : Bool :=
  match s.data with
  | [y1, y2, y3, y4, h1, m1, m2, h2, d1, d2] =>
      y1.isDigit && y2.isDigit && y3.isDigit && y4.isDigit
        && h1 == '-' && m1.isDigit && m2.isDigit
        && h2 == '-' && d1.isDigit && d2.isDigit
  | _ => false

/-- The numeric value of a decimal digit character. -/
def digitVal (c : Char) : Nat := c.toNat - 48

/-- Reads the date back out of a ten-character `YYYY-MM-DD` string. -/
def readIsoDate (s : String) : Option Date :=
  match s.data with
  | [y1, y2, y3, y4, _, m1, m2, _, d1, d2] =>
      some { year := ((digitVal y1 * 10 + digitVal y2) * 10 + digitVal y3) * 10
               + digitVal y4
             month := digitVal m1 * 10 + digitVal m2
             day := digitVal d1 * 10 + digitVal d2 }
  | _ => none

/-! ## PR Query (`search_prs_created`, `src/app.py` lines 20–76) -/

/-- The data of a pull request whose detail resolution succeeded: the
fields read inside the `try` block at lines 47–63 (`is_merged()`,
`merged_at`, `additions`, `deletions`, `title`, `html_url`,
`created_at`, `state`).  `additions`/`deletions` are `Option` because the
code guards them with `or 0`. -/
structure PRDetail where
  is_merged : Bool
  merged_at : Option Date
  additions : Option Nat
  deletions : Option Nat
  title : String
  html_url : String
  created_at : Option Date
  state : String
deriving Repr, DecidableEq

/-- A converted pull request.  `detail = none` models the
`GithubException` raised inside the `try` block at lines 47–66 (the first
API call there is `pr.is_merged()`); the handler skips the item's
contributions and continues. -/
structure PRData where
  detail : Option PRDetail
deriving Repr, DecidableEq

/-- One hit of the PR search.  `as_pr = none` models
`issue.as_pull_request()` raising at line 39, whose handler `continue`s
before any count is touched; `created_at` is `issue.created_at`. -/
structure PRIssue where
  as_pr : Option PRData
  created_at : Option Date
deriving Repr, DecidableEq

/-- One entry of `pr_details` (lines 54–63). -/
structure PRRecord where
  username : String
  title : String
  url : String
  created_at : Option Date
  merged_at : Option Date
  state : String
deriving Repr, DecidableEq

/-- The dictionary returned by `search_prs_created` (lines 68–76). -/
structure PRSummary where
  prs_created : Nat
  prs_merged : Nat
  additions : Nat
  deletions : Nat
  created_dates : List Date
  merged_dates : List Date
  pr_details : List PRRecord
deriving Repr, DecidableEq

/-- The all-zero accumulator state at lines 24–30. -/
def emptyPRSummary : PRSummary :=
  { prs_created := 0, prs_merged := 0, additions := 0, deletions := 0
    created_dates := [], merged_dates := [], pr_details := [] }

/-- The query string built at lines 32–35. -/
def pr_query (org username : String) (start_date end_date : Date) : String :=
  "org:" ++ org ++ " author:" ++ username ++ " is:pr "
    ++ "created:" ++ start_date.isoformat ++ ".." ++ end_date.isoformat

/-- One iteration of the loop at lines 37–66. -/
def prStep (username : String) (acc : PRSummary) (issue : PRIssue) : PRSummary :=
  match issue.as_pr with
  | none => acc
  | some prd =>
    let acc := { acc with prs_created := acc.prs_created + 1 }
    let acc :=
      match issue.created_at with
      | some d => { acc with created_dates := acc.created_dates ++ [d] }
      | none => acc
    match prd.detail with
    | none => acc
    | some det =>
      let acc :=
        if det.is_merged then
          let acc := { acc with prs_merged := acc.prs_merged + 1 }
          match det.merged_at with
          | some d => { acc with merged_dates := acc.merged_dates ++ [d] }
          | none => acc
        else acc
      { acc with
        additions := acc.additions + det.additions.getD 0
        deletions := acc.deletions + det.deletions.getD 0
        pr_details := acc.pr_details
          ++ [{ username := username, title := det.title, url := det.html_url
                created_at := det.created_at, merged_at := det.merged_at
                state := det.state }] }

/-- `search_prs_created` (lines 20–76), over the list of issues the
search returned. -/
def search_prs_created (username : String) (issues : List PRIssue) : PRSummary :=
  issues.foldl (prStep username) emptyPRSummary

/-! ## Review Query (`search_reviews`, `src/app.py` lines 79–169) -/

/-- One review of a PR, as read at lines 104–122: `review.user` may be
absent (`none` also covers a user object whose login is never reached),
`review.submitted_at` may be absent, `review.state` is a string. -/
structure Review where
  user : Option String
  submitted_at : Option Date
  state : String
deriving Repr, DecidableEq

/-- A pull request of the review search together with its review list
(`pr.get_reviews()`). -/
structure RevPR where
  title : String
  html_url : String
  reviews : List Review
deriving Repr, DecidableEq

/-- One hit of the review search.  `as_pr = none` models the per-item
`GithubException` caught at lines 124–125 and 164–165 (raised by
`issue.as_pull_request()` or by `pr.get_reviews()`); the handler
`continue`s, so the item contributes nothing.  An exception raised midway
through a PR's review list is the same as that PR carrying only the
reviews iterated before it. -/
structure RevIssue where
  as_pr : Option RevPR
deriving Repr, DecidableEq

/-- One entry of `review_details` (lines 115–123 and 155–163). -/
structure ReviewRecord where
  username : String
  pr_title : String
  pr_url : String
  submitted_at : Date
  state : String
deriving Repr, DecidableEq

/-- The dictionary returned by `search_reviews` (line 169). -/
structure ReviewSummary where
  count : Nat
  review_dates : List Date
  review_details : List ReviewRecord
deriving Repr, DecidableEq

/-- The empty accumulator state at lines 91–93. -/
def emptyReviewSummary : ReviewSummary :=
  { count := 0, review_dates := [], review_details := [] }

/-- What a search iterator produced: the items it yielded, and whether it
then raised a `GithubException` instead of exhausting normally (the
query-level failures caught at lines 126–127 and 166–167). -/
structure SearchStream where
  items : List RevIssue
  raises : Bool
deriving Repr, DecidableEq

/-- `max_items = 200` (line 95): safety cap to avoid excessive API calls. -/
def max_items : Nat := 200

/-- The primary review-search query string (lines 87–90). -/
def review_query (org username : String) (start_date end_date : Date) : String :=
  "org:" ++ org ++ " is:pr reviewed-by:" ++ username ++ " "
    ++ "updated:" ++ start_date.isoformat ++ ".." ++ end_date.isoformat

/-- The fallback query string (lines 131–133). -/
def fallback_query (org : String) (start_date end_date : Date) : String :=
  "org:" ++ org ++ " is:pr updated:" ++ start_date.isoformat
    ++ ".." ++ end_date.isoformat

/-- The per-review filter and accumulation shared by both passes (lines
104–123 and 144–163): the review must have a user whose login matches the
target case-insensitively, and a submission date inside
`[start_date, end_date]`. -/
def reviewStep (username : String) (start_date end_date : Date) (pr : RevPR)
    (acc : ReviewSummary) (r : Review) : ReviewSummary :=
  match r.user, r.submitted_at with
  | some login, some d =>
      if login.toLower == username.toLower
          && Date.le start_date d && Date.le d end_date then
        { count := acc.count + 1
          review_dates := acc.review_dates ++ [d]
          review_details := acc.review_details
            ++ [{ username := username, pr_title := pr.title
                  pr_url := pr.html_url, submitted_at := d, state := r.state }] }
      else acc
  | _, _ => acc

/-- Processing one search hit in either pass: resolve the PR and scan its
reviews; a per-item exception leaves the accumulator untouched. -/
def revStep (username : String) (start_date end_date : Date)
    (acc : ReviewSummary) (issue : RevIssue) : ReviewSummary :=
  match issue.as_pr with
  | none => acc
  | some pr => pr.reviews.foldl (reviewStep username start_date end_date pr) acc

/-- The accumulation of the primary loop body over the yielded items
(lines 97–125).  `enumerate` breaks at index `max_items`, so exactly the
first `max_items` yielded items are processed. -/
def primary_items_acc (username : String) (start_date end_date : Date)
    (sr : SearchStream) : ReviewSummary :=
  (sr.items.take max_items).foldl (revStep username start_date end_date)
    emptyReviewSummary

/-- The primary pass with its query-level handler (lines 96–127).  The
iterator's exception is observed only when the loop asks for another item,
i.e. when at most `max_items` items were yielded (with more, the `break`
at line 100 fires first); the handler resets `count` to zero and leaves
`review_dates`/`review_details` as accumulated. -/
def primary_pass (username : String) (start_date end_date : Date)
    (sr : SearchStream) : ReviewSummary :=
  let acc := primary_items_acc username start_date end_date sr
  if sr.raises && decide (sr.items.length ≤ max_items) then
    { acc with count := 0 }
  else acc

/-- The fallback pass (lines 134–167), continuing from the accumulator the
primary pass left behind.  `counted_prs` breaks after `max_items`
processed PRs; a query-level exception is swallowed by `pass`, so the
result is whatever was accumulated from the yielded items — the `raises`
flag changes nothing. -/
def fallback_pass (username : String) (start_date end_date : Date)
    (sr : SearchStream) (acc : ReviewSummary) : ReviewSummary :=
  (sr.items.take max_items).foldl (revStep username start_date end_date) acc

/-- What the two review searches returned for one invocation. -/
structure ReviewWorld where
  primary : SearchStream
  fallback : SearchStream
deriving Repr, DecidableEq

/-- `search_reviews` (lines 79–169): primary pass, then — exactly when the
count is zero (line 130) — the fallback pass. -/
def search_reviews (username : String) (start_date end_date : Date)
    (w : ReviewWorld) : ReviewSummary :=
  let acc := primary_pass username start_date end_date w.primary
  if acc.count == 0 then
    fallback_pass username start_date end_date w.fallback acc
  else acc

/-! ## Aggregator (`build_metrics`, `src/app.py` lines 172–223) -/

/-- The responses of the GitHub API for one `build_metrics` call: per
username, the hits of the PR search and the streams of the two review
searches. -/
structure World where
  prIssues : String → List PRIssue
  revPrimary : String → SearchStream
  revFallback : String → SearchStream

/-- One row of the summary-metrics table (lines 191–201).
`merge_ratio_pct` embeds the `merge_ratio_%` column as an exact rational. -/
structure MetricsRow where
  username : String
  prs_created : Nat
  prs_merged : Nat
  merge_ratio_pct : ℚ
  reviews : Nat
  additions : Nat
  deletions : Nat
deriving Repr, DecidableEq

/-- One entry of the PR event table (lines 203–206). -/
structure PREvent where
  username : String
  date : Date
  event : String
deriving Repr, DecidableEq

/-- One entry of the review event table (lines 207–208). -/
structure ReviewEvent where
  username : String
  date : Date
deriving Repr, DecidableEq

/-- The five tables `build_metrics` returns (lines 217–223). -/
structure Metrics where
  metrics : List MetricsRow
  pr_events : List PREvent
  review_events : List ReviewEvent
  pr_list : List PRRecord
  review_list : List ReviewRecord
deriving Repr, DecidableEq

/-- The empty table accumulators at lines 176–180. -/
def emptyMetrics : Metrics :=
  { metrics := [], pr_events := [], review_events := []
    pr_list := [], review_list := [] }

/-- Python's `round(x, 1)` over exact rationals: round to the nearest
multiple of 1/10, with a tie going to the even tenth — CPython rounds
half to even, e.g. `round(6.25, 1) = 6.2`. -/
def round1 (q : ℚ) : ℚ :=
  if Int.fract (10 * q) < 1 / 2 then (⌊10 * q⌋ : ℚ) / 10
  else if 1 / 2 < Int.fract (10 * q) then ((⌊10 * q⌋ : ℚ) + 1) / 10
  else if ⌊10 * q⌋ % 2 = 0 then (⌊10 * q⌋ : ℚ) / 10
  else ((⌊10 * q⌋ : ℚ) + 1) / 10

/-- `merge_ratio = (prs_merged / prs_created) * 100 if prs_created else 0`
(line 189). -/
def merge_ratio (prs_created prs_merged : Nat) : ℚ :=
  if prs_created ≠ 0 then ((prs_merged : ℚ) / (prs_created : ℚ)) * 100 else 0

/-- One iteration of the per-user loop at lines 182–210. -/
def userStep (start_date end_date : Date) (w : World) (acc : Metrics)
    (user : String) : Metrics :=
  let created_stats := search_prs_created user (w.prIssues user)
  let reviews_data := search_reviews user start_date end_date
    { primary := w.revPrimary user, fallback := w.revFallback user }
  { metrics := acc.metrics
      ++ [{ username := user
            prs_created := created_stats.prs_created
            prs_merged := created_stats.prs_merged
            merge_ratio_pct :=
              round1 (merge_ratio created_stats.prs_created created_stats.prs_merged)
            reviews := reviews_data.count
            additions := created_stats.additions
            deletions := created_stats.deletions }]
    pr_events := acc.pr_events
      ++ created_stats.created_dates.map
          (fun d => { username := user, date := d, event := "created" })
      ++ created_stats.merged_dates.map
          (fun d => { username := user, date := d, event := "merged" })
    review_events := acc.review_events
      ++ reviews_data.review_dates.map (fun d => { username := user, date := d })
    pr_list := acc.pr_list ++ created_stats.pr_details
    review_list := acc.review_list ++ reviews_data.review_details }

/-- `build_metrics` (lines 172–223): iterate the username list in order,
running both queries per user and extending the five tables. -/
def build_metrics (users : List String) (start_date end_date : Date)
    (w : World) : Metrics :=
  users.foldl (userStep start_date end_date w) emptyMetrics

/-! ## Derived definitions used by the verification -/

/-- The detail record of a PR search hit, when both the conversion and the
detail resolution succeed. -/
def detailOf (i : PRIssue) : Option PRDetail := i.as_pr.bind PRData.detail

/-- The `pr_details` entry appended for a resolved PR (lines 54–63). -/
def recordOf (username : String) (det : PRDetail) : PRRecord :=
  { username := username, title := det.title, url := det.html_url
    created_at := det.created_at, merged_at := det.merged_at
    state := det.state }

/-- How much one search hit adds to `created_count`. -/
def createdContrib (i : PRIssue) : Nat :=
  if i.as_pr.isSome then 1 else 0

/-- What one search hit appends to `created_dates`. -/
def createdDatesContrib (i : PRIssue) : List Date :=
  if i.as_pr.isSome then i.created_at.toList else []

/-- How much one search hit adds to `merged_count`. -/
def mergedContrib (i : PRIssue) : Nat :=
  match detailOf i with
  | some det => if det.is_merged then 1 else 0
  | none => 0

/-- What one search hit appends to `merged_dates`. -/
def mergedDatesContrib (i : PRIssue) : List Date :=
  match detailOf i with
  | some det => if det.is_merged then det.merged_at.toList else []
  | none => []

/-- How much one search hit adds to `additions`. -/
def addContrib (i : PRIssue) : Nat :=
  match detailOf i with
  | some det => det.additions.getD 0
  | none => 0

/-- How much one search hit adds to `deletions`. -/
def delContrib (i : PRIssue) : Nat :=
  match detailOf i with
  | some det => det.deletions.getD 0
  | none => 0

/-- What one search hit appends to `pr_details`. -/
def detailsContrib (username : String) (i : PRIssue) : List PRRecord :=
  match detailOf i with
  | some det => [recordOf username det]
  | none => []

/-- Concatenation of review summaries: counts add, the date and detail
lists append. -/
def addSummary (a b : ReviewSummary) : ReviewSummary :=
  { count := a.count + b.count
    review_dates := a.review_dates ++ b.review_dates
    review_details := a.review_details ++ b.review_details }

/-- A search stream cut to what the 200-item cap can ever see: the first
`max_items` yielded items; an iterator that had yielded more than
`max_items` items can no longer be observed to raise. -/
def truncate_stream (sr : SearchStream) : SearchStream :=
  { items := sr.items.take max_items
    raises := sr.raises && decide (sr.items.length ≤ max_items) }

/-- The review summary `build_metrics` obtains for one user. -/
def reviewsFor (u : String) (start_date end_date : Date) (w : World) :
    ReviewSummary :=
  search_reviews u start_date end_date
    { primary := w.revPrimary u, fallback := w.revFallback u }

/-- The summary-metrics row `build_metrics` appends for one user. -/
def rowFor (u : String) (start_date end_date : Date) (w : World) : MetricsRow :=
  { username := u
    prs_created := (search_prs_created u (w.prIssues u)).prs_created
    prs_merged := (search_prs_created u (w.prIssues u)).prs_merged
    merge_ratio_pct :=
      round1 (merge_ratio (search_prs_created u (w.prIssues u)).prs_created
        (search_prs_created u (w.prIssues u)).prs_merged)
    reviews := (reviewsFor u start_date end_date w).count
    additions := (search_prs_created u (w.prIssues u)).additions
    deletions := (search_prs_created u (w.prIssues u)).deletions }

/-- The PR event-table entries `build_metrics` appends for one user. -/
def prEventsFor (u : String) (w : World) : List PREvent :=
  (search_prs_created u (w.prIssues u)).created_dates.map
      (fun d => { username := u, date := d, event := "created" })
    ++ (search_prs_created u (w.prIssues u)).merged_dates.map
      (fun d => { username := u, date := d, event := "merged" })

/-- The review event-table entries `build_metrics` appends for one user. -/
def revEventsFor (u : String) (start_date end_date : Date) (w : World) :
    List ReviewEvent :=
  (reviewsFor u start_date end_date w).review_dates.map
    (fun d => { username := u, date := d })

/-! ## Concrete fixtures for witnesses -/

/-- A merged PR with 50 added and 10 deleted lines. -/
def issueMerged : PRIssue :=
  { as_pr := some ⟨some
      { is_merged := true, merged_at := some ⟨2024, 1, 2⟩
        additions := some 50, deletions := some 10, title := "t"
        html_url := "u", created_at := some ⟨2024, 1, 1⟩, state := "closed" }⟩
    created_at := some ⟨2024, 1, 1⟩ }

/-- An open PR with 50 added and 10 deleted lines. -/
def issueOpen : PRIssue :=
  { as_pr := some ⟨some
      { is_merged := false, merged_at := none
        additions := some 50, deletions := some 10, title := "t"
        html_url := "u", created_at := some ⟨2024, 1, 1⟩, state := "open" }⟩
    created_at := some ⟨2024, 1, 1⟩ }

/-- A world where user alice has three PRs (two merged) and no reviews. -/
def worldAlice : World :=
  { prIssues := fun _ => [issueMerged, issueMerged, issueOpen]
    revPrimary := fun _ => { items := [], raises := false }
    revFallback := fun _ => { items := [], raises := false } }

/-- The summary row `worldAlice` should produce: 3 created, 2 merged,
ratio 66.7, 150 additions, 30 deletions. -/
def rowAlice : MetricsRow :=
  { username := "alice", prs_created := 3, prs_merged := 2
    merge_ratio_pct := 667 / 10, reviews := 0, additions := 150
    deletions := 30 }

/-- An approving review by Alice on 2024-01-05. -/
def reviewByAlice : Review :=
  { user := some "Alice", submitted_at := some ⟨2024, 1, 5⟩, state := "APPROVED" }

/-- A review-search hit carrying `reviewByAlice`. -/
def revHit : RevIssue :=
  { as_pr := some { title := "p", html_url := "u", reviews := [reviewByAlice] } }

/-- Review searches where the primary iterator yields one hit with a
matching review and then raises, and the fallback yields nothing. -/
def reviewWorldErr : ReviewWorld :=
  { primary := { items := [revHit], raises := true }
    fallback := { items := [], raises := false } }

/-! ## Helper lemmas: date formatting -/

theorem digitChar_isDigit (n : Nat) : (digitChar n).isDigit = true := by
  unfold digitChar
  have h : n % 10 < 10 := Nat.mod_lt _ (by norm_num)
  set m := n % 10
  interval_cases m <;> rfl

theorem isIsoDateShape_isoformat (d : Date) :
    isIsoDateShape d.isoformat = true := by
  unfold isIsoDateShape Date.isoformat
  simp [digitChar_isDigit]

theorem digitVal_digitChar (n : Nat) : digitVal (digitChar n) = n % 10 := by
  unfold digitChar digitVal
  have h : n % 10 < 10 := Nat.mod_lt _ (by norm_num)
  set m := n % 10
  interval_cases m <;> rfl

/-- On the domain Python's `date` enforces, `isoformat` loses nothing:
the rendered digits read back to the original date. -/
theorem readIsoDate_isoformat (d : Date) (hd : d.valid) :
    readIsoDate d.isoformat = some d := by
  obtain ⟨h1, h2, h3, h4, h5, h6⟩ := hd
  unfold readIsoDate Date.isoformat
  simp only [digitVal_digitChar, Option.some.injEq]
  obtain ⟨y, m, dy⟩ := d
  simp only at h1 h2 h3 h4 h5 h6
  congr 1 <;> simp <;> omega

/-! ## Helper lemmas: PR Query accumulation -/

theorem prStep_eq (username : String) (acc : PRSummary) (i : PRIssue) :
    prStep username acc i =
      { prs_created := acc.prs_created + createdContrib i
        prs_merged := acc.prs_merged + mergedContrib i
        additions := acc.additions + addContrib i
        deletions := acc.deletions + delContrib i
        created_dates := acc.created_dates ++ createdDatesContrib i
        merged_dates := acc.merged_dates ++ mergedDatesContrib i
        pr_details := acc.pr_details ++ detailsContrib username i } := by
  obtain ⟨as_pr, created_at⟩ := i
  unfold prStep createdContrib createdDatesContrib mergedContrib
    mergedDatesContrib addContrib delContrib detailsContrib detailOf recordOf
  rcases as_pr with _ | ⟨det⟩
  · simp
  · rcases det with _ | det
    · rcases created_at with _ | d <;> simp
    · rcases created_at with _ | d <;> by_cases hm : det.is_merged <;>
        rcases hmd : det.merged_at with _ | md <;> simp [hm, hmd]

theorem foldl_prStep_eq (username : String) (issues : List PRIssue)
    (acc : PRSummary) :
    issues.foldl (prStep username) acc =
      { prs_created := acc.prs_created + (issues.map createdContrib).sum
        prs_merged := acc.prs_merged + (issues.map mergedContrib).sum
        additions := acc.additions + (issues.map addContrib).sum
        deletions := acc.deletions + (issues.map delContrib).sum
        created_dates := acc.created_dates ++ issues.flatMap createdDatesContrib
        merged_dates := acc.merged_dates ++ issues.flatMap mergedDatesContrib
        pr_details := acc.pr_details ++ issues.flatMap (detailsContrib username) } := by
  induction issues generalizing acc with
  | nil => simp
  | cons hd tl ih =>
      simp only [List.foldl_cons, List.map_cons, List.sum_cons, List.flatMap_cons]
      rw [prStep_eq, ih]
      simp [Nat.add_assoc, List.append_assoc]

theorem search_prs_created_eq (username : String) (issues : List PRIssue) :
    search_prs_created username issues =
      { prs_created := (issues.map createdContrib).sum
        prs_merged := (issues.map mergedContrib).sum
        additions := (issues.map addContrib).sum
        deletions := (issues.map delContrib).sum
        created_dates := issues.flatMap createdDatesContrib
        merged_dates := issues.flatMap mergedDatesContrib
        pr_details := issues.flatMap (detailsContrib username) } := by
  unfold search_prs_created emptyPRSummary
  rw [foldl_prStep_eq]
  simp

theorem mergedContrib_le_createdContrib (i : PRIssue) :
    mergedContrib i ≤ createdContrib i := by
  unfold mergedContrib createdContrib detailOf
  rcases i.as_pr with _ | prd
  · simp
  · rcases hd : prd.detail with _ | det
    · simp [hd]
    · simp only [Option.bind_some, hd, Option.isSome_some, if_true]
      split
      · split <;> simp
      · simp

theorem length_mergedDatesContrib (i : PRIssue) :
    (mergedDatesContrib i).length ≤ mergedContrib i := by
  unfold mergedDatesContrib mergedContrib
  rcases detailOf i with _ | det
  · simp
  · by_cases hm : det.is_merged <;>
      rcases hmd : det.merged_at with _ | d <;> simp [hm, hmd]

theorem length_createdDatesContrib (i : PRIssue) :
    (createdDatesContrib i).length ≤ createdContrib i := by
  unfold createdDatesContrib createdContrib
  by_cases h : i.as_pr.isSome <;>
    rcases hc : i.created_at with _ | d <;> simp [h, hc]

theorem length_detailsContrib (username : String) (i : PRIssue) :
    (detailsContrib username i).length ≤ createdContrib i := by
  unfold detailsContrib createdContrib detailOf
  rcases i.as_pr with _ | prd
  · simp
  · rcases hd : prd.detail with _ | det <;> simp [hd]

theorem sum_map_boole {α : Type} (p : α → Bool) (l : List α) :
    (l.map (fun i => if p i then 1 else 0)).sum = l.countP p := by
  induction l with
  | nil => rfl
  | cons hd tl ih =>
      by_cases hp : p hd = true <;>
        simp [List.countP_cons, hp, ih, Nat.add_comm]

theorem sum_map_filter_of_zero {α : Type} (p : α → Bool) (f : α → Nat)
    (l : List α) (h : ∀ i, p i = false → f i = 0) :
    ((l.filter p).map f).sum = (l.map f).sum := by
  induction l with
  | nil => rfl
  | cons hd tl ih =>
      by_cases hp : p hd = true
      · simp [List.filter_cons, hp, ih]
      · have h0 := h hd (by simpa using hp)
        simp [List.filter_cons, hp, h0, ih]

theorem flatMap_filter_of_nil {α β : Type} (p : α → Bool) (f : α → List β)
    (l : List α) (h : ∀ i, p i = false → f i = []) :
    (l.filter p).flatMap f = l.flatMap f := by
  induction l with
  | nil => rfl
  | cons hd tl ih =>
      by_cases hp : p hd = true
      · simp [List.filter_cons, hp, ih]
      · have h0 := h hd (by simpa using hp)
        simp [List.filter_cons, hp, h0, ih]

theorem mergedContrib_of_unresolvable (i : PRIssue)
    (h : (detailOf i).isSome = false) : mergedContrib i = 0 := by
  unfold mergedContrib
  rcases hd : detailOf i with _ | det
  · rfl
  · rw [hd] at h; simp at h

theorem addContrib_of_unresolvable (i : PRIssue)
    (h : (detailOf i).isSome = false) : addContrib i = 0 := by
  unfold addContrib
  rcases hd : detailOf i with _ | det
  · rfl
  · rw [hd] at h; simp at h

theorem delContrib_of_unresolvable (i : PRIssue)
    (h : (detailOf i).isSome = false) : delContrib i = 0 := by
  unfold delContrib
  rcases hd : detailOf i with _ | det
  · rfl
  · rw [hd] at h; simp at h

theorem mergedDatesContrib_of_unresolvable (i : PRIssue)
    (h : (detailOf i).isSome = false) : mergedDatesContrib i = [] := by
  unfold mergedDatesContrib
  rcases hd : detailOf i with _ | det
  · rfl
  · rw [hd] at h; simp at h

theorem detailsContrib_of_unresolvable (username : String) (i : PRIssue)
    (h : (detailOf i).isSome = false) : detailsContrib username i = [] := by
  unfold detailsContrib
  rcases hd : detailOf i with _ | det
  · rfl
  · rw [hd] at h; simp at h

/-! ## Helper lemmas: Review Query accumulation -/

theorem addSummary_emptyRight (a : ReviewSummary) :
    addSummary a emptyReviewSummary = a := by
  unfold addSummary emptyReviewSummary
  simp

theorem reviewStep_add (username : String) (start_date end_date : Date)
    (pr : RevPR) (a b : ReviewSummary) (r : Review) :
    reviewStep username start_date end_date pr (addSummary a b) r
      = addSummary a (reviewStep username start_date end_date pr b r) := by
  obtain ⟨user, sub, st⟩ := r
  unfold reviewStep
  rcases user with _ | login
  · rfl
  · rcases sub with _ | d
    · rfl
    · dsimp only
      split
      · unfold addSummary
        simp [Nat.add_assoc]
      · rfl

theorem foldl_reviewStep_add (username : String) (start_date end_date : Date)
    (pr : RevPR) (l : List Review) (a b : ReviewSummary) :
    l.foldl (reviewStep username start_date end_date pr) (addSummary a b)
      = addSummary a (l.foldl (reviewStep username start_date end_date pr) b) := by
  induction l generalizing b with
  | nil => rfl
  | cons hd tl ih => simp only [List.foldl_cons, reviewStep_add, ih]

theorem revStep_add (username : String) (start_date end_date : Date)
    (a b : ReviewSummary) (i : RevIssue) :
    revStep username start_date end_date (addSummary a b) i
      = addSummary a (revStep username start_date end_date b i) := by
  obtain ⟨as_pr⟩ := i
  unfold revStep
  rcases as_pr with _ | pr
  · rfl
  · exact foldl_reviewStep_add username start_date end_date pr pr.reviews a b

theorem foldl_revStep_add (username : String) (start_date end_date : Date)
    (l : List RevIssue) (a b : ReviewSummary) :
    l.foldl (revStep username start_date end_date) (addSummary a b)
      = addSummary a (l.foldl (revStep username start_date end_date) b) := by
  induction l generalizing b with
  | nil => rfl
  | cons hd tl ih => simp only [List.foldl_cons, revStep_add, ih]

theorem foldl_revStep_decomp (username : String) (start_date end_date : Date)
    (l : List RevIssue) (acc : ReviewSummary) :
    l.foldl (revStep username start_date end_date) acc
      = addSummary acc
          (l.foldl (revStep username start_date end_date) emptyReviewSummary) := by
  conv_lhs => rw [← addSummary_emptyRight acc]
  exact foldl_revStep_add username start_date end_date l acc emptyReviewSummary

theorem reviewStep_balance (username : String) (start_date end_date : Date)
    (pr : RevPR) (acc : ReviewSummary) (r : Review)
    (h : acc.count = acc.review_dates.length) :
    (reviewStep username start_date end_date pr acc r).count
      = (reviewStep username start_date end_date pr acc r).review_dates.length := by
  obtain ⟨user, sub, st⟩ := r
  unfold reviewStep
  rcases user with _ | login
  · exact h
  · rcases sub with _ | d
    · exact h
    · dsimp only
      split
      · simp [h]
      · exact h

theorem foldl_reviewStep_balance (username : String) (start_date end_date : Date)
    (pr : RevPR) (l : List Review) (acc : ReviewSummary)
    (h : acc.count = acc.review_dates.length) :
    (l.foldl (reviewStep username start_date end_date pr) acc).count
      = (l.foldl (reviewStep username start_date end_date pr) acc).review_dates.length := by
  induction l generalizing acc with
  | nil => exact h
  | cons hd tl ih =>
      exact ih _ (reviewStep_balance username start_date end_date pr acc hd h)

theorem revStep_balance (username : String) (start_date end_date : Date)
    (acc : ReviewSummary) (i : RevIssue)
    (h : acc.count = acc.review_dates.length) :
    (revStep username start_date end_date acc i).count
      = (revStep username start_date end_date acc i).review_dates.length := by
  obtain ⟨as_pr⟩ := i
  unfold revStep
  rcases as_pr with _ | pr
  · exact h
  · exact foldl_reviewStep_balance username start_date end_date pr pr.reviews acc h

theorem foldl_revStep_balance (username : String) (start_date end_date : Date)
    (l : List RevIssue) (acc : ReviewSummary)
    (h : acc.count = acc.review_dates.length) :
    (l.foldl (revStep username start_date end_date) acc).count
      = (l.foldl (revStep username start_date end_date) acc).review_dates.length := by
  induction l generalizing acc with
  | nil => exact h
  | cons hd tl ih =>
      exact ih _ (revStep_balance username start_date end_date acc hd h)

theorem primary_items_acc_balance (username : String) (start_date end_date : Date)
    (sr : SearchStream) :
    (primary_items_acc username start_date end_date sr).count
      = (primary_items_acc username start_date end_date sr).review_dates.length := by
  unfold primary_items_acc
  exact foldl_revStep_balance username start_date end_date _ _ rfl

theorem fallback_pass_empty_balance (username : String) (start_date end_date : Date)
    (sr : SearchStream) :
    (fallback_pass username start_date end_date sr emptyReviewSummary).count
      = (fallback_pass username start_date end_date sr
          emptyReviewSummary).review_dates.length := by
  unfold fallback_pass
  exact foldl_revStep_balance username start_date end_date _ _ rfl

/-! ## Helper lemmas: aggregator and rounding -/

theorem userStep_eq (start_date end_date : Date) (w : World) (acc : Metrics)
    (user : String) :
    userStep start_date end_date w acc user =
      { metrics := acc.metrics ++ [rowFor user start_date end_date w]
        pr_events := acc.pr_events ++ prEventsFor user w
        review_events := acc.review_events
          ++ revEventsFor user start_date end_date w
        pr_list := acc.pr_list
          ++ (search_prs_created user (w.prIssues user)).pr_details
        review_list := acc.review_list
          ++ (reviewsFor user start_date end_date w).review_details } := by
  unfold userStep rowFor prEventsFor revEventsFor reviewsFor
  simp [List.append_assoc]

theorem foldl_userStep_eq (users : List String) (start_date end_date : Date)
    (w : World) (acc : Metrics) :
    users.foldl (userStep start_date end_date w) acc =
      { metrics := acc.metrics
          ++ users.map (fun u => rowFor u start_date end_date w)
        pr_events := acc.pr_events ++ users.flatMap (fun u => prEventsFor u w)
        review_events := acc.review_events
          ++ users.flatMap (fun u => revEventsFor u start_date end_date w)
        pr_list := acc.pr_list
          ++ users.flatMap
              (fun u => (search_prs_created u (w.prIssues u)).pr_details)
        review_list := acc.review_list
          ++ users.flatMap
              (fun u => (reviewsFor u start_date end_date w).review_details) } := by
  induction users generalizing acc with
  | nil => simp
  | cons hd tl ih =>
      simp only [List.foldl_cons, List.map_cons, List.flatMap_cons]
      rw [userStep_eq, ih]
      simp [List.append_assoc]

theorem build_metrics_eq (users : List String) (start_date end_date : Date)
    (w : World) :
    build_metrics users start_date end_date w =
      { metrics := users.map (fun u => rowFor u start_date end_date w)
        pr_events := users.flatMap (fun u => prEventsFor u w)
        review_events := users.flatMap
          (fun u => revEventsFor u start_date end_date w)
        pr_list := users.flatMap
          (fun u => (search_prs_created u (w.prIssues u)).pr_details)
        review_list := users.flatMap
          (fun u => (reviewsFor u start_date end_date w).review_details) } := by
  unfold build_metrics emptyMetrics
  rw [foldl_userStep_eq]
  simp

theorem round1_zero : round1 0 = 0 := by
  unfold round1
  norm_num

/-- The half-to-even tie behaviour at Python's `round(6.25, 1) = 6.2`
(reachable as the ratio of 1 merged out of 16 created). -/
theorem round1_tie_to_even : round1 ((1 : ℚ) / 16 * 100) = 62 / 10 := by
  unfold round1 Int.fract
  norm_num

theorem round1_nonneg {q : ℚ} (h : 0 ≤ q) : 0 ≤ round1 q := by
  unfold round1
  have hz : (0 : ℤ) ≤ ⌊10 * q⌋ := Int.floor_nonneg.mpr (by positivity)
  have hz0 : (0 : ℚ) ≤ (⌊10 * q⌋ : ℚ) := by exact_mod_cast hz
  have h10 : (0 : ℚ) ≤ 10 := by norm_num
  split
  · exact div_nonneg hz0 h10
  · split
    · exact div_nonneg (by linarith) h10
    · split
      · exact div_nonneg hz0 h10
      · exact div_nonneg (by linarith) h10

theorem round1_le_100 {q : ℚ} (h : q ≤ 100) : round1 q ≤ 100 := by
  unfold round1
  have hz : ⌊10 * q⌋ ≤ 1000 := by
    calc ⌊10 * q⌋ ≤ ⌊(1000 : ℚ)⌋ := Int.floor_mono (by linarith)
    _ = 1000 := by norm_num
  have hzq : ((⌊10 * q⌋ : ℤ) : ℚ) ≤ 1000 := by exact_mod_cast hz
  have hfr : Int.fract (10 * q) = 10 * q - ⌊10 * q⌋ := rfl
  have hten : (0 : ℚ) < 10 := by norm_num
  have h999 : ¬ Int.fract (10 * q) < 1 / 2 →
      ((⌊10 * q⌋ : ℤ) : ℚ) + 1 ≤ 1000 := by
    intro h1
    rw [hfr] at h1
    push_neg at h1
    have hlt : ((⌊10 * q⌋ : ℤ) : ℚ) < 1000 := by linarith
    have hz9 : ⌊10 * q⌋ < 1000 := by exact_mod_cast hlt
    have hz99 : ⌊10 * q⌋ + 1 ≤ 1000 := by omega
    exact_mod_cast hz99
  split
  · rw [div_le_iff₀ hten]; linarith
  · rename_i h1
    split
    · rw [div_le_iff₀ hten]
      have hb := h999 h1
      linarith
    · split
      · rw [div_le_iff₀ hten]; linarith
      · rw [div_le_iff₀ hten]
        have hb := h999 h1
        linarith

/-! ## Claim theorems -/

/-- C8: for every (org, username, start, end), the PR Query's search
string is exactly `org:{org} author:{username} is:pr
created:{start}..{end}` with the dates rendered in ISO `YYYY-MM-DD`
format (ten characters, digit-exact for the given date). -/
theorem pr_query_format (org username : String) (start_date end_date : Date)
    (hs : start_date.valid) (he : end_date.valid) :
    pr_query org username start_date end_date
      = "org:" ++ org ++ " author:" ++ username ++ " is:pr created:"
        ++ start_date.isoformat ++ ".." ++ end_date.isoformat
    ∧ isIsoDateShape start_date.isoformat = true
    ∧ isIsoDateShape end_date.isoformat = true
    ∧ readIsoDate start_date.isoformat = some start_date
    ∧ readIsoDate end_date.isoformat = some end_date := by
  refine ⟨?_, isIsoDateShape_isoformat start_date, isIsoDateShape_isoformat end_date,
    readIsoDate_isoformat start_date hs, readIsoDate_isoformat end_date he⟩
  unfold pr_query
  simp [String.append_assoc]

/-- Witness for `pr_query_format` at a concrete org, user and valid dates. -/
theorem pr_query_format_witness :
    Date.valid ⟨2024, 1, 1⟩ ∧ Date.valid ⟨2024, 2, 1⟩ ∧
    (pr_query "myorg" "alice" ⟨2024, 1, 1⟩ ⟨2024, 2, 1⟩
        = "org:" ++ "myorg" ++ " author:" ++ "alice" ++ " is:pr created:"
          ++ Date.isoformat ⟨2024, 1, 1⟩ ++ ".." ++ Date.isoformat ⟨2024, 2, 1⟩
      ∧ isIsoDateShape (Date.isoformat ⟨2024, 1, 1⟩) = true
      ∧ isIsoDateShape (Date.isoformat ⟨2024, 2, 1⟩) = true
      ∧ readIsoDate (Date.isoformat ⟨2024, 1, 1⟩) = some ⟨2024, 1, 1⟩
      ∧ readIsoDate (Date.isoformat ⟨2024, 2, 1⟩) = some ⟨2024, 2, 1⟩) :=
  ⟨by decide, by decide,
    pr_query_format "myorg" "alice" ⟨2024, 1, 1⟩ ⟨2024, 2, 1⟩ (by decide) (by decide)⟩

/-- C2 counterexample: a search hit whose `as_pull_request()` conversion
raises (lines 38–42) is skipped by `continue` before `created_count` is
incremented, so this single-hit search yields a created count of 0 — not
every search hit increments the created count. -/
theorem search_prs_conversion_failure_not_counted :
    (search_prs_created "alice"
        [{ as_pr := none, created_at := some ⟨2024, 1, 1⟩ }]).prs_created = 0
    ∧ ([{ as_pr := none, created_at := some ⟨2024, 1, 1⟩ }] : List PRIssue).length
        = 1 := by
  exact ⟨rfl, rfl⟩

/-- C2 (amended): every search hit that converts to a pull request
increments the created count (a hit whose conversion raises is skipped
entirely and not counted); when detail resolution throws for a converted
item, that item's additions/deletions/merge contributions are skipped but
the item is still counted as created — the merge, addition and deletion
data equal those of the search restricted to the detail-resolvable hits. -/
theorem search_prs_partial_failure (username : String) (issues : List PRIssue) :
    (search_prs_created username issues).prs_created
      = issues.countP (fun i => i.as_pr.isSome)
    ∧ (search_prs_created username issues).prs_merged
        = (search_prs_created username
            (issues.filter (fun i => (detailOf i).isSome))).prs_merged
    ∧ (search_prs_created username issues).additions
        = (search_prs_created username
            (issues.filter (fun i => (detailOf i).isSome))).additions
    ∧ (search_prs_created username issues).deletions
        = (search_prs_created username
            (issues.filter (fun i => (detailOf i).isSome))).deletions
    ∧ (search_prs_created username issues).merged_dates
        = (search_prs_created username
            (issues.filter (fun i => (detailOf i).isSome))).merged_dates
    ∧ (search_prs_created username issues).pr_details
        = (search_prs_created username
            (issues.filter (fun i => (detailOf i).isSome))).pr_details := by
  rw [search_prs_created_eq, search_prs_created_eq]
  refine ⟨?_, ?_, ?_, ?_, ?_, ?_⟩
  · unfold createdContrib
    exact sum_map_boole (fun i => i.as_pr.isSome) issues
  · exact (sum_map_filter_of_zero _ _ _
      (fun i h => mergedContrib_of_unresolvable i h)).symm
  · exact (sum_map_filter_of_zero _ _ _
      (fun i h => addContrib_of_unresolvable i h)).symm
  · exact (sum_map_filter_of_zero _ _ _
      (fun i h => delContrib_of_unresolvable i h)).symm
  · exact (flatMap_filter_of_nil _ _ _
      (fun i h => mergedDatesContrib_of_unresolvable i h)).symm
  · exact (flatMap_filter_of_nil _ _ _
      (fun i h => detailsContrib_of_unresolvable username i h)).symm

/-- C10: for every result of PR Query, `prs_merged ≤ prs_created`, the
number of merged dates is at most `prs_merged`, the number of created
dates is at most `prs_created`, and the number of `pr_details` records is
at most `prs_created`. -/
theorem search_prs_invariants (username : String) (issues : List PRIssue) :
    (search_prs_created username issues).prs_merged
        ≤ (search_prs_created username issues).prs_created
    ∧ (search_prs_created username issues).merged_dates.length
        ≤ (search_prs_created username issues).prs_merged
    ∧ (search_prs_created username issues).created_dates.length
        ≤ (search_prs_created username issues).prs_created
    ∧ (search_prs_created username issues).pr_details.length
        ≤ (search_prs_created username issues).prs_created := by
  rw [search_prs_created_eq]
  refine ⟨?_, ?_, ?_, ?_⟩
  · exact List.sum_le_sum (fun i _ => mergedContrib_le_createdContrib i)
  · rw [List.length_flatMap]
    simp only [Function.comp]
    exact List.sum_le_sum (fun i _ => length_mergedDatesContrib i)
  · rw [List.length_flatMap]
    simp only [Function.comp]
    exact List.sum_le_sum (fun i _ => length_createdDatesContrib i)
  · rw [List.length_flatMap]
    simp only [Function.comp]
    exact List.sum_le_sum (fun i _ => length_detailsContrib username i)

/-- C3: the fallback pass executes if and only if the count after the
primary pass is exactly zero — whether because the primary pass found no
qualifying reviews or because a query-level error reset the count:
the Review Query's result is the fallback pass continued from the primary
pass's accumulator exactly when that count is zero, and the primary pass's
result untouched otherwise. -/
theorem fallback_iff_zero_count (username : String) (start_date end_date : Date)
    (w : ReviewWorld) :
    search_reviews username start_date end_date w
      = if (primary_pass username start_date end_date w.primary).count = 0
        then fallback_pass username start_date end_date w.fallback
               (primary_pass username start_date end_date w.primary)
        else primary_pass username start_date end_date w.primary := by
  unfold search_reviews
  by_cases h : (primary_pass username start_date end_date w.primary).count = 0 <;>
    simp [h]

/-- C4: each pass of the Review Query processes at most `max_items = 200`
pull requests: truncating both search streams to their first 200 items
(after which an iterator can no longer be observed to raise) leaves the
returned count, dates and details unchanged, so pull requests beyond the
cap contribute nothing. -/
theorem review_cap_200 (username : String) (start_date end_date : Date)
    (w : ReviewWorld) :
    max_items = 200
    ∧ search_reviews username start_date end_date
        { primary := truncate_stream w.primary
          fallback := truncate_stream w.fallback }
      = search_reviews username start_date end_date w := by
  refine ⟨rfl, ?_⟩
  have hcond : ((w.primary.raises && decide (w.primary.items.length ≤ max_items))
        && decide ((w.primary.items.take max_items).length ≤ max_items))
      = (w.primary.raises && decide (w.primary.items.length ≤ max_items)) := by
    cases hw : w.primary.raises <;> simp [List.length_take, max_items]
  have hp : primary_pass username start_date end_date (truncate_stream w.primary)
      = primary_pass username start_date end_date w.primary := by
    unfold primary_pass primary_items_acc truncate_stream
    simp only [List.take_take, min_self]
    rw [hcond]
  have hf : ∀ acc,
      fallback_pass username start_date end_date (truncate_stream w.fallback) acc
        = fallback_pass username start_date end_date w.fallback acc := by
    intro acc
    unfold fallback_pass truncate_stream
    simp [List.take_take]
  unfold search_reviews
  rw [hp]
  simp only [hf]

/-- C5: a query-level error during the primary pass (the iterator raising
after yielding at most `max_items` items) resets the count to zero and
proceeds to the fallback pass; a query-level error during the fallback
pass is swallowed — the result is the same whether or not the fallback
iterator raised; the embedding is a total function, so the Review Query
returns a value rather than raising for these errors. -/
theorem review_error_policy (username : String) (start_date end_date : Date)
    (w : ReviewWorld) (hp : w.primary.raises = true)
    (hl : w.primary.items.length ≤ max_items) :
    (primary_pass username start_date end_date w.primary).count = 0
    ∧ search_reviews username start_date end_date w
        = fallback_pass username start_date end_date w.fallback
            { primary_items_acc username start_date end_date w.primary with
              count := 0 }
    ∧ ∀ b : Bool,
        search_reviews username start_date end_date
            { primary := w.primary
              fallback := { items := w.fallback.items, raises := b } }
          = search_reviews username start_date end_date w := by
  have h0 : primary_pass username start_date end_date w.primary
      = { primary_items_acc username start_date end_date w.primary with
          count := 0 } := by
    unfold primary_pass
    simp [hp, hl]
  refine ⟨by rw [h0], ?_, fun b => rfl⟩
  unfold search_reviews
  rw [h0]
  simp

/-- Witness for `review_error_policy`: one matching review accumulated by
the primary pass before its iterator raises, an empty fallback. -/
theorem review_error_policy_witness :
    reviewWorldErr.primary.raises = true
    ∧ reviewWorldErr.primary.items.length ≤ max_items
    ∧ ((primary_pass "alice" ⟨2024, 1, 1⟩ ⟨2024, 1, 31⟩
          reviewWorldErr.primary).count = 0
      ∧ search_reviews "alice" ⟨2024, 1, 1⟩ ⟨2024, 1, 31⟩ reviewWorldErr
          = fallback_pass "alice" ⟨2024, 1, 1⟩ ⟨2024, 1, 31⟩
              reviewWorldErr.fallback
              { primary_items_acc "alice" ⟨2024, 1, 1⟩ ⟨2024, 1, 31⟩
                  reviewWorldErr.primary with count := 0 }
      ∧ ∀ b : Bool,
          search_reviews "alice" ⟨2024, 1, 1⟩ ⟨2024, 1, 31⟩
              { primary := reviewWorldErr.primary
                fallback := { items := reviewWorldErr.fallback.items
                              raises := b } }
            = search_reviews "alice" ⟨2024, 1, 1⟩ ⟨2024, 1, 31⟩ reviewWorldErr) :=
  ⟨rfl, by decide,
    review_error_policy "alice" ⟨2024, 1, 1⟩ ⟨2024, 1, 31⟩ reviewWorldErr rfl
      (by decide)⟩

/-- C9: when the primary pass raises a query-level error after
accumulating reviews, the returned `review_dates` and `review_details`
retain the primary-pass entries followed by the fallback-pass entries,
while the returned count reflects only the fallback-pass reviews; hence
whenever the primary pass had accumulated at least one review, the count
is strictly less than the length of `review_dates`. -/
theorem review_error_keeps_primary_data (username : String)
    (start_date end_date : Date) (w : ReviewWorld)
    (hp : w.primary.raises = true) (hl : w.primary.items.length ≤ max_items) :
    (search_reviews username start_date end_date w).review_dates
      = (primary_items_acc username start_date end_date w.primary).review_dates
        ++ (fallback_pass username start_date end_date w.fallback
             emptyReviewSummary).review_dates
    ∧ (search_reviews username start_date end_date w).review_details
      = (primary_items_acc username start_date end_date w.primary).review_details
        ++ (fallback_pass username start_date end_date w.fallback
             emptyReviewSummary).review_details
    ∧ (search_reviews username start_date end_date w).count
      = (fallback_pass username start_date end_date w.fallback
          emptyReviewSummary).count
    ∧ (0 < (primary_items_acc username start_date end_date w.primary).count →
        (search_reviews username start_date end_date w).count
          < (search_reviews username start_date end_date w).review_dates.length) := by
  have h0 : primary_pass username start_date end_date w.primary
      = { primary_items_acc username start_date end_date w.primary with
          count := 0 } := by
    unfold primary_pass
    simp [hp, hl]
  have hsr : search_reviews username start_date end_date w
      = addSummary
          { primary_items_acc username start_date end_date w.primary with
            count := 0 }
          (fallback_pass username start_date end_date w.fallback
            emptyReviewSummary) := by
    unfold search_reviews
    rw [h0]
    simp only [fallback_pass]
    rw [foldl_revStep_decomp]
    simp [fallback_pass]
  rw [hsr]
  refine ⟨rfl, rfl, by simp [addSummary], ?_⟩
  intro hpos
  have hb := primary_items_acc_balance username start_date end_date w.primary
  have hf := fallback_pass_empty_balance username start_date end_date w.fallback
  simp only [addSummary, List.length_append]
  omega

/-- C1: for every aggregator row, the merge ratio equals
(merged / created) × 100 rounded to 1 decimal when the created count is
positive, and equals 0 when the created count is zero (the embedding is
total, so no division-by-zero error occurs); whenever merged ≤ created,
the ratio lies between 0 and 100 inclusive. -/
theorem merge_ratio_correct (users : List String) (start_date end_date : Date)
    (w : World) (row : MetricsRow)
    (hrow : row ∈ (build_metrics users start_date end_date w).metrics) :
    row.merge_ratio_pct
      = (if row.prs_created = 0 then 0
         else round1 ((row.prs_merged : ℚ) / (row.prs_created : ℚ) * 100))
    ∧ (row.prs_merged ≤ row.prs_created →
        0 ≤ row.merge_ratio_pct ∧ row.merge_ratio_pct ≤ 100) := by
  rw [build_metrics_eq] at hrow
  simp only [List.mem_map] at hrow
  obtain ⟨u, -, hu⟩ := hrow
  subst hu
  unfold rowFor
  simp only
  constructor
  · by_cases hc : (search_prs_created u (w.prIssues u)).prs_created = 0
    · simp [hc, merge_ratio, round1_zero]
    · simp [hc, merge_ratio]
  · intro hm
    by_cases hc : (search_prs_created u (w.prIssues u)).prs_created = 0
    · simp [hc, merge_ratio, round1_zero]
    · have hcpos : (0 : ℚ) < (search_prs_created u (w.prIssues u)).prs_created := by
        exact_mod_cast Nat.pos_of_ne_zero hc
      have hmle : ((search_prs_created u (w.prIssues u)).prs_merged : ℚ)
          ≤ ((search_prs_created u (w.prIssues u)).prs_created : ℚ) := by
        exact_mod_cast hm
      have hq : merge_ratio (search_prs_created u (w.prIssues u)).prs_created
          (search_prs_created u (w.prIssues u)).prs_merged
          = ((search_prs_created u (w.prIssues u)).prs_merged : ℚ)
            / ((search_prs_created u (w.prIssues u)).prs_created : ℚ) * 100 := by
        simp [merge_ratio, hc]
      have h0 : (0 : ℚ) ≤ ((search_prs_created u (w.prIssues u)).prs_merged : ℚ)
          / ((search_prs_created u (w.prIssues u)).prs_created : ℚ) * 100 := by
        positivity
      have h100 : ((search_prs_created u (w.prIssues u)).prs_merged : ℚ)
          / ((search_prs_created u (w.prIssues u)).prs_created : ℚ) * 100
          ≤ 100 := by
        have hd : ((search_prs_created u (w.prIssues u)).prs_merged : ℚ)
            / ((search_prs_created u (w.prIssues u)).prs_created : ℚ) ≤ 1 :=
          (div_le_one hcpos).mpr hmle
        linarith
      rw [hq]
      exact ⟨round1_nonneg h0, round1_le_100 h100⟩

/-- Witness for `merge_ratio_correct`: user alice with 3 PRs created, 2
merged, 150 additions, 30 deletions produces the row with ratio 66.7. -/
theorem merge_ratio_correct_witness :
    rowAlice ∈ (build_metrics ["alice"] ⟨2024, 1, 1⟩ ⟨2024, 1, 31⟩
        worldAlice).metrics
    ∧ (rowAlice.merge_ratio_pct
        = (if rowAlice.prs_created = 0 then 0
           else round1 ((rowAlice.prs_merged : ℚ)
             / (rowAlice.prs_created : ℚ) * 100))
      ∧ (rowAlice.prs_merged ≤ rowAlice.prs_created →
          0 ≤ rowAlice.merge_ratio_pct ∧ rowAlice.merge_ratio_pct ≤ 100)) := by
  have hrow : rowFor "alice" ⟨2024, 1, 1⟩ ⟨2024, 1, 31⟩ worldAlice = rowAlice := by
    have hc : (search_prs_created "alice"
        (worldAlice.prIssues "alice")).prs_created = 3 := by decide
    have hm : (search_prs_created "alice"
        (worldAlice.prIssues "alice")).prs_merged = 2 := by decide
    have ha : (search_prs_created "alice"
        (worldAlice.prIssues "alice")).additions = 150 := by decide
    have hd : (search_prs_created "alice"
        (worldAlice.prIssues "alice")).deletions = 30 := by decide
    have hv : (reviewsFor "alice" ⟨2024, 1, 1⟩ ⟨2024, 1, 31⟩ worldAlice).count
        = 0 := by decide
    unfold rowFor rowAlice
    rw [hc, hm, ha, hd, hv]
    simp only [MetricsRow.mk.injEq, and_true, true_and]
    unfold round1 merge_ratio Int.fract
    norm_num
  have hmem : rowAlice ∈ (build_metrics ["alice"] ⟨2024, 1, 1⟩ ⟨2024, 1, 31⟩
      worldAlice).metrics := by
    rw [build_metrics_eq]
    simp [hrow]
  exact ⟨hmem, merge_ratio_correct ["alice"] ⟨2024, 1, 1⟩ ⟨2024, 1, 31⟩
    worldAlice rowAlice hmem⟩

/-- C6: for every input username list, the summary-metrics table has
exactly one row per input entry, in input order, with no deduplication of
repeated usernames: mapping each row to its username yields the input
list itself. -/
theorem metrics_rows_match_users (users : List String)
    (start_date end_date : Date) (w : World) :
    (build_metrics users start_date end_date w).metrics.map MetricsRow.username
      = users := by
  rw [build_metrics_eq]
  simp only [List.map_map]
  have h : (MetricsRow.username ∘ fun u => rowFor u start_date end_date w)
      = fun u => u := by
    funext u
    rfl
  rw [h]
  simp

/-- C7: the aggregator's event tables contain exactly one record per
occurrence: the PR event table is, user by user in order, one
(username, date, "created") entry per creation date followed by one
(username, date, "merged") entry per merge date from PR Query, and the
review event table is one (username, date) entry per review date from
Review Query — nothing is collapsed or added. -/
theorem event_tables_exact (users : List String) (start_date end_date : Date)
    (w : World) :
    (build_metrics users start_date end_date w).pr_events
      = users.flatMap (fun u =>
          (search_prs_created u (w.prIssues u)).created_dates.map
              (fun d => { username := u, date := d, event := "created" })
            ++ (search_prs_created u (w.prIssues u)).merged_dates.map
              (fun d => { username := u, date := d, event := "merged" }))
    ∧ (build_metrics users start_date end_date w).review_events
      = users.flatMap (fun u =>
          (search_reviews u start_date end_date
              { primary := w.revPrimary u
                fallback := w.revFallback u }).review_dates.map
            (fun d => { username := u, date := d })) := by
  rw [build_metrics_eq]
  constructor
  · simp [prEventsFor]
  · simp [revEventsFor, reviewsFor]

/-- Witness for `review_error_keeps_primary_data`: the primary pass
accumulates one review, its iterator raises, the fallback finds nothing;
the result keeps the date but counts zero. -/
theorem review_error_keeps_primary_data_witness :
    reviewWorldErr.primary.raises = true
    ∧ reviewWorldErr.primary.items.length ≤ max_items
    ∧ ((search_reviews "alice" ⟨2024, 1, 1⟩ ⟨2024, 1, 31⟩
          reviewWorldErr).review_dates
        = (primary_items_acc "alice" ⟨2024, 1, 1⟩ ⟨2024, 1, 31⟩
            reviewWorldErr.primary).review_dates
          ++ (fallback_pass "alice" ⟨2024, 1, 1⟩ ⟨2024, 1, 31⟩
               reviewWorldErr.fallback emptyReviewSummary).review_dates
      ∧ (search_reviews "alice" ⟨2024, 1, 1⟩ ⟨2024, 1, 31⟩
          reviewWorldErr).review_details
        = (primary_items_acc "alice" ⟨2024, 1, 1⟩ ⟨2024, 1, 31⟩
            reviewWorldErr.primary).review_details
          ++ (fallback_pass "alice" ⟨2024, 1, 1⟩ ⟨2024, 1, 31⟩
               reviewWorldErr.fallback emptyReviewSummary).review_details
      ∧ (search_reviews "alice" ⟨2024, 1, 1⟩ ⟨2024, 1, 31⟩
          reviewWorldErr).count
        = (fallback_pass "alice" ⟨2024, 1, 1⟩ ⟨2024, 1, 31⟩
            reviewWorldErr.fallback emptyReviewSummary).count
      ∧ (0 < (primary_items_acc "alice" ⟨2024, 1, 1⟩ ⟨2024, 1, 31⟩
            reviewWorldErr.primary).count →
          (search_reviews "alice" ⟨2024, 1, 1⟩ ⟨2024, 1, 31⟩
            reviewWorldErr).count
            < (search_reviews "alice" ⟨2024, 1, 1⟩ ⟨2024, 1, 31⟩
                reviewWorldErr).review_dates.length)) :=
  ⟨rfl, by decide,
    review_error_keeps_primary_data "alice" ⟨2024, 1, 1⟩ ⟨2024, 1, 31⟩
      reviewWorldErr rfl (by decide)⟩

end EngDash
